import Mathlib

/-
Shallow embedding of the poker-next game server (src/server/server.ts) and of
the client-local game engine (the useGame hook), together with proofs about
the game state machine, betting round controller, hand evaluator, deck
shuffling and the join/broadcast protocol.

Conventions of the embedding:
* JS numbers holding chip amounts are modelled as `Int` (all arithmetic on
  them in the source is integral); scores are `Nat`.
* The mutable `Game` object is modelled as an immutable structure; each
  handler is a function `Game → ...` returning the updated state.
* `Array.prototype.sort` with the inconsistent random comparator of
  `createDeck` is modelled as `List.insertionSort` over an arbitrary boolean
  comparator: the ECMAScript ordering is implementation defined there, but
  any sort returns a permutation, which is the property at stake.
* `Math.random()` draws are passed in explicitly (`cmp`, `rand`, or an
  explicitly supplied shuffled deck) so every definition is a pure function
  of its inputs.
-/

-- ====== CARDS (server/server.ts) ======

inductive Suit where
  | hearts | diamonds | clubs | spades
deriving DecidableEq, Repr, Fintype

inductive Rank where
  | A | K | Q | J | r10 | r9 | r8 | r7 | r6 | r5 | r4 | r3 | r2
deriving DecidableEq, Repr, Fintype

structure Card where
  suit : Suit
  rank : Rank
deriving DecidableEq, Repr

/-- `getCardValue` of server.ts. -/
def getCardValue : Rank → Nat
  | .A => 14 | .K => 13 | .Q => 12 | .J => 11 | .r10 => 10
  | .r9 => 9 | .r8 => 8 | .r7 => 7 | .r6 => 6 | .r5 => 5
  | .r4 => 4 | .r3 => 3 | .r2 => 2

/-- The 52 cards in the construction order of `createDeck` (server.ts),
before the shuffle. -/
def baseDeck : List Card :=
  ([.hearts, .diamonds, .clubs, .spades] : List Suit).flatMap fun s =>
    ([.A, .K, .Q, .J, .r10, .r9, .r8, .r7, .r6, .r5, .r4, .r3, .r2] : List Rank).map
      fun r => { suit := s, rank := r }

/-- `createDeck` of server.ts: build the 52 cards, then
`deck.sort(() => Math.random() - 0.5)`.  The random comparator makes the
resulting order implementation defined; it is modelled by an arbitrary
boolean comparator `cmp` fed to a sort. -/
def createDeck (cmp : Card → Card → Bool) : List Card :=
  baseDeck.insertionSort fun a b => cmp a b = true

-- ====== HAND EVALUATOR (server.ts evaluateHand) ======

/-- The multiset of per-rank occurrence counts (`Object.values(rankCounts)`
in evaluateHand), sorted descending (`.sort((a, b) => b - a)`). -/
def sortedCounts (rs : List Rank) : List Nat :=
  (rs.dedup.map fun r => rs.count r).insertionSort (· ≥ ·)

/-- The chain of category tests of `evaluateHand`, applied to the sorted
rank counts, the flush flag and the straight flag. -/
def handTypeOf (counts : List Nat) (isFlush isStraight : Bool) : String :=
  if counts.getD 0 0 = 4 then "Four of a Kind"
  else if counts.getD 0 0 = 3 ∧ counts.getD 1 0 = 2 then "Full House"
  else if isFlush then "Flush"
  else if isStraight then "Straight"
  else if counts.getD 0 0 = 3 then "Three of a Kind"
  else if counts.getD 0 0 = 2 ∧ counts.getD 1 0 = 2 then "Two Pair"
  else if counts.getD 0 0 = 2 then "Pair"
  else "High Card"

/-- The score assignment of `evaluateHand`, mirroring `handTypeOf`. -/
def scoreOf (counts : List Nat) (isFlush isStraight : Bool) (top : Nat) : Nat :=
  if counts.getD 0 0 = 4 then 800000 + top
  else if counts.getD 0 0 = 3 ∧ counts.getD 1 0 = 2 then 700000 + top
  else if isFlush then 600000 + top
  else if isStraight then 500000 + top
  else if counts.getD 0 0 = 3 then 400000 + top
  else if counts.getD 0 0 = 2 ∧ counts.getD 1 0 = 2 then 300000 + top
  else if counts.getD 0 0 = 2 then 200000 + top
  else 100000 + top

/-- `evaluateHand` of server.ts: 2 hole cards plus community cards to
(score, hand label).  The suit histogram test `some(count >= 5)` is
expressed as: some suit occurring in the cards occurs at least 5 times. -/
def evaluateHand (hand community : List Card) : Nat × String :=
  let allCards := hand ++ community
  let counts := sortedCounts (allCards.map (·.rank))
  let values := (allCards.map fun c => getCardValue c.rank).insertionSort (· ≥ ·)
  let isFlush := ((allCards.map (·.suit)).dedup).any fun s =>
    decide (5 ≤ (allCards.map (·.suit)).count s)
  let uniqueValues := values.dedup
  let windowStraight := (List.range (uniqueValues.length - 4)).any fun i =>
    uniqueValues.getD i 0 - uniqueValues.getD (i + 4) 0 = 4
  let isStraight := windowStraight ||
    (uniqueValues.contains 14 && uniqueValues.contains 2 && uniqueValues.contains 3 &&
      uniqueValues.contains 4 && uniqueValues.contains 5)
  (scoreOf counts isFlush isStraight (values.getD 0 0),
   handTypeOf counts isFlush isStraight)

-- ====== GAME STATE (server.ts type definitions) ======

inductive Phase where
  | idle | betting1 | flop | betting2 | turn | betting3 | river | betting4 | showdown
deriving DecidableEq, Repr

structure Player where
  id : String
  name : String
  walletAddress : Option String
  chips : Int
  bet : Int
  roundBet : Int
  hand : List Card
  folded : Bool
  isActive : Bool
  hasDealerChip : Bool
  actedThisRound : Bool   -- optional in TS; an absent field reads as false
  handType : Option String
deriving DecidableEq, Repr

def defaultPlayer : Player :=
  { id := "", name := "", walletAddress := none, chips := 0, bet := 0, roundBet := 0,
    hand := [], folded := false, isActive := false, hasDealerChip := false,
    actedThisRound := false, handType := none }

structure HandEval where
  id : String
  name : String
  hand : List Card
  score : Nat
  handType : String
deriving DecidableEq, Repr

structure WinnerInfo where
  id : String
  name : String
  chips : Int
  potWon : Int
  reason : String
  hand : List Card
  handType : String
  allHands : List HandEval
deriving DecidableEq, Repr

structure FoldWinnerInfo where
  id : String
  name : String
  chips : Int
  potWon : Int
  foldedPlayerId : String
  foldedPlayerName : String
deriving DecidableEq, Repr

structure Game where
  gameId : String
  gameType : String
  yellowSessionId : Option String
  players : List Player
  community : List Card
  pot : Int
  highBet : Int
  phase : Phase
  activePlayerIndex : Nat
  minBet : Int
  deck : List Card        -- `null` is modelled as the state before startGame
  winner : Option WinnerInfo
  foldWinner : Option FoldWinnerInfo
deriving DecidableEq, Repr

/-- `game.phase.startsWith('betting')`. -/
def isBettingPhase : Phase → Bool
  | .betting1 | .betting2 | .betting3 | .betting4 => true
  | _ => false

/-- `phases.indexOf(game.phase)` against
`['betting1','flop','betting2','turn','betting3','river','betting4','showdown']`
(`idle` gives -1, modelled as `none`). -/
def phaseIndex : Phase → Option Nat
  | .idle => none
  | .betting1 => some 0
  | .flop => some 1
  | .betting2 => some 2
  | .turn => some 3
  | .betting3 => some 4
  | .river => some 5
  | .betting4 => some 6
  | .showdown => some 7

def phaseAt : Nat → Phase
  | 0 => .betting1
  | 1 => .flop
  | 2 => .betting2
  | 3 => .turn
  | 4 => .betting3
  | 5 => .river
  | 6 => .betting4
  | _ => .showdown

-- ====== DEALING (server.ts dealCards / dealCommunityCards) ======

/-- `deck.pop()`: remove and return the last card. -/
def popCard (d : List Card) : Option Card × List Card :=
  match d.getLast? with
  | some c => (some c, d.dropLast)
  | none => (none, d)

/-- `dealCommunityCards(game, count)`: pop `count` cards onto the community
board.  (The JS pushes `undefined` on an exhausted deck; here an exhausted
pop deals nothing — the deck cannot run out in any state exercised below.) -/
def dealCommunityCards : Game → Nat → Game
  | g, 0 => g
  | g, n + 1 =>
    match popCard g.deck with
    | (some c, d) =>
        dealCommunityCards { g with community := g.community ++ [c], deck := d } n
    | (none, _) => dealCommunityCards g n

/-- `dealCards(game)`: each player in order receives
`[deck.pop(), deck.pop()]`. -/
def dealHoleGo : List Player → List Card → List Player × List Card
  | [], d => ([], d)
  | p :: ps, d =>
    let (c1, d1) := popCard d
    let (c2, d2) := popCard d1
    let (ps', d') := dealHoleGo ps d2
    ({ p with hand := [c1, c2].reduceOption } :: ps', d')

def dealCards (g : Game) : Game :=
  let (ps, d) := dealHoleGo g.players g.deck
  { g with players := ps, deck := d }

-- ====== ROUND PREDICATES (server.ts) ======

/-- `allBetsMatched(game)` of server.ts. -/
def allBetsMatched (g : Game) : Bool :=
  let activePlayers := g.players.filter fun p => !p.folded && p.isActive
  if activePlayers.length ≤ 1 then true
  else
    let playersWithChips := activePlayers.filter fun p => p.chips > 0
    if playersWithChips.length = 0 then true
    else
      let acted := playersWithChips.all (·.actedThisRound)
      let betsMatch := playersWithChips.all fun p =>
        p.roundBet = (playersWithChips.getD 0 defaultPlayer).roundBet
      acted && betsMatch

/-- The `while` search of `advanceActivePlayer`: starting at `idx`, skip
players that are folded or out of chips, counting skips; `fuel` bounds the
loop (the JS loop runs at most `len` times since `skipCount` is checked). -/
def advSearch (ps : List Player) (len : Nat) : Nat → Nat → Nat → Nat × Nat
  | 0, idx, skip => (idx, skip)
  | fuel + 1, idx, skip =>
    if skip < len then
      let p := ps.getD idx defaultPlayer
      if p.folded || p.chips = 0 then
        advSearch ps len fuel ((idx + 1) % len) (skip + 1)
      else (idx, skip)
    else (idx, skip)

/-- `advanceActivePlayer(game)` of server.ts. -/
def advanceActivePlayer (g : Game) : Game :=
  let activePlayers := g.players.filter fun p => !p.folded
  if activePlayers.length ≤ 1 then g
  else
    let len := g.players.length
    let r := advSearch g.players len (len + 1) ((g.activePlayerIndex + 1) % len) 0
    if len ≤ r.2 then g
    else { g with activePlayerIndex := r.1 }

-- ====== WINNER RESOLUTION (server.ts determineWinner / showdown blocks) ======

/-- `determineWinner(players, community)` of server.ts, tracked by index into
`players`.  Returns the winning index together with the hand label that the
function wrote onto the winner (`winner.handType = bestEval.handType`); the
single-player early return performs no evaluation and writes no label,
signalled by `none`. -/
def determineWinnerIdx (ps : List Player) (community : List Card) :
    Option (Nat × Option String) :=
  match (List.range ps.length).filter fun i => !(ps.getD i defaultPlayer).folded with
  | [] => none
  | [i] => some (i, none)
  | i0 :: rest =>
    let step := fun (acc : Nat × (Nat × String)) i =>
      let e := evaluateHand (ps.getD i defaultPlayer).hand community
      if acc.2.1 < e.1 then (i, e) else acc
    let r := rest.foldl step (i0, evaluateHand (ps.getD i0 defaultPlayer).hand community)
    some (r.1, some r.2.2)

/-- The tail of the showdown blocks of `advancePhase`:
`winner.chips += game.pot`, then record `game.winner` with
`potWon: game.pot`.  The pot itself is left untouched here. -/
def finishWinner (g : Game) (widx : Nat) (reason : String) : Game :=
  let w := g.players.getD widx defaultPlayer
  let players := g.players.set widx { w with chips := w.chips + g.pot }
  let g1 := { g with players := players }
  let w' := g1.players.getD widx defaultPlayer
  let allHands := (g1.players.filter (!·.folded)).map fun p =>
    let e := evaluateHand p.hand g1.community
    ({ id := p.id, name := p.name, hand := p.hand, score := e.1, handType := e.2 } : HandEval)
  let info : WinnerInfo :=
    { id := w'.id, name := w'.name, chips := w'.chips, potWon := g1.pot, reason := reason,
      hand := w'.hand, handType := w'.handType.getD "High Card", allHands := allHands }
  { g1 with winner := some info }

/-- The winner-resolution block that `advancePhase` runs on entering
showdown (duplicated in the source for the all-in branch and for the
`betting4 → showdown` branch; both blocks are identical). -/
def resolveWinnerShowdown (g : Game) : Game :=
  let nonFolded := g.players.filter (!·.folded)
  if nonFolded.length = 1 then
    match (List.range g.players.length).find? fun i =>
        !(g.players.getD i defaultPlayer).folded with
    | some widx => finishWinner g widx "Everyone else folded"
    | none => g
  else
    match determineWinnerIdx g.players g.community with
    | some (widx, some ht) =>
      let w := g.players.getD widx defaultPlayer
      finishWinner { g with players := g.players.set widx { w with handType := some ht } }
        widx "Best hand"
    | some (widx, none) => finishWinner g widx "Best hand"
    | none => g   -- no non-folded player: the JS would throw on `winner.hand`

-- ====== PHASE ADVANCEMENT (server.ts advancePhase) ======

/-- The per-betting-phase reset of `advancePhase`: clear `roundBet` and
`actedThisRound`, zero `highBet`, set `activePlayerIndex`. -/
def resetBettingRound (g : Game) (idx : Nat) : Game :=
  { g with
    players := g.players.map fun p => { p with roundBet := 0, actedThisRound := false },
    highBet := 0,
    activePlayerIndex := idx }

/-- `Math.floor(bettingIndex / 2) % 2` over
`['betting1','betting2','betting3','betting4']`. -/
def bettingStartIndex : Phase → Nat
  | .betting3 => 1
  | .betting4 => 1
  | _ => 0

/-- `advancePhase(game)` of server.ts (the Yellow-Network settlement call at
the end of the showdown blocks is external I/O and does not touch the game
state). -/
def advancePhase (g : Game) : Game :=
  match phaseIndex g.phase with
  | none => g
  | some currentIndex =>
    let activePlayers := g.players.filter fun p => !p.folded && p.isActive
    let allAllIn := activePlayers.all fun p => p.chips = 0
    if allAllIn then
      let g1 :=
        if g.community.length < 5 then dealCommunityCards g (5 - g.community.length) else g
      resolveWinnerShowdown { g1 with phase := .showdown }
    else if 8 ≤ currentIndex + 1 then { g with phase := .showdown }
    else
      let np := phaseAt (currentIndex + 1)
      let g1 := { g with phase := np }
      let g2 := if isBettingPhase np then resetBettingRound g1 (bettingStartIndex np) else g1
      match np with
      | .flop =>
        let g3 := dealCommunityCards g2 3
        resetBettingRound { g3 with phase := .betting2 } 0
      | .turn =>
        let g3 := dealCommunityCards g2 1
        resetBettingRound { g3 with phase := .betting3 } 0
      | .river =>
        let g3 := dealCommunityCards g2 1
        resetBettingRound { g3 with phase := .betting4 } 0
      | .showdown => resolveWinnerShowdown g2
      | _ => g2

-- ====== ACTION HANDLERS (server.ts 'action' message) ======

/-- The `nextRound` branch of the action handler: unconditional reset of the
hand (no phase guard in the source), with rebuy of busted players. -/
def nextRoundReset (g : Game) : Game :=
  { g with
    phase := .idle,
    pot := 0,
    highBet := 0,
    players := g.players.map fun p =>
      let p1 := { p with
          bet := (0 : Int), folded := false, hand := ([] : List Card),
          roundBet := (0 : Int), actedThisRound := false }
      if p1.chips = 0 then { p1 with chips := 1000 } else p1,
    community := [],
    winner := none }

/-- The `fold` branch: mark the actor folded; if exactly one non-folded
player remains, award the pot, zero it, and only then record `foldWinner`
(so its `potWon` reads the already-zeroed pot — this ordering is taken
verbatim from the source). -/
def applyFold (g : Game) (i : Nat) : Game :=
  let player := g.players.getD i defaultPlayer
  let g1 := { g with players := g.players.set i { player with folded := true } }
  let activePlayers := g1.players.filter (!·.folded)
  if activePlayers.length = 1 then
    match (List.range g1.players.length).find? fun j =>
        !(g1.players.getD j defaultPlayer).folded with
    | some widx =>
      let w := g1.players.getD widx defaultPlayer
      let players2 := g1.players.set widx { w with chips := w.chips + g1.pot }
      let g2 := { g1 with players := players2, phase := .idle, pot := 0 }
      let w' := g2.players.getD widx defaultPlayer
      let info : FoldWinnerInfo :=
        { id := w'.id, name := w'.name, chips := w'.chips,
          potWon := g2.pot,   -- reads the pot after it was zeroed
          foldedPlayerId := player.id, foldedPlayerName := player.name }
      let g3 := { g2 with foldWinner := some info }
      { g3 with
        players := g3.players.map fun p =>
          { p with bet := 0, folded := false, hand := ([] : List Card) },
        community := [] }
    | none => g1
  else advanceActivePlayer g1

/-- The state mutation of the `check` branch after validation. -/
def applyCheckCore (g : Game) (i : Nat) : Game :=
  let player := g.players.getD i defaultPlayer
  advanceActivePlayer
    { g with players := g.players.set i { player with actedThisRound := true } }

/-- Stand-in for the `-Infinity` that `Math.max(...[])` yields when every
player is folded or inactive (never the case when a bet is accepted: the
actor itself is live). -/
def negInfInt : Int := -(2 ^ 53)

/-- `Math.max(...game.players.filter(p => !p.folded && p.isActive).map(p => p.roundBet))`. -/
def maxRoundBetOf (g : Game) : Int :=
  ((g.players.filter fun p => !p.folded && p.isActive).map (·.roundBet)).foldl max negInfInt

/-- The chip/pot mutation of the `bet` branch after validation. -/
def betApply (g : Game) (i : Nat) (amount : Int) : Game :=
  let player := g.players.getD i defaultPlayer
  let p1 := { player with
      chips := player.chips - amount,
      roundBet := player.roundBet + amount, actedThisRound := true }
  { g with players := g.players.set i p1, pot := g.pot + amount }

/-- The raise branch of the `bet` handler: clear `actedThisRound` for every
player who is not the actor (`p.id !== player.id`) and not folded. -/
def raiseClear (g : Game) (actorId : String) : Game :=
  { g with players := g.players.map fun p =>
      if p.id ≠ actorId ∧ p.folded = false then { p with actedThisRound := false } else p }

/-- The `bet` branch after validation: apply the bet, recompute `highBet`,
clear `actedThisRound` of every other non-folded player when the new
maximum strictly exceeds the previous `highBet` (a raise), then advance the
turn. -/
def applyBetCore (g : Game) (i : Nat) (amount : Int) : Game :=
  let actorId := (g.players.getD i defaultPlayer).id
  let g1 := betApply g i amount
  let maxRoundBet := maxRoundBetOf g1
  let wasARaise := g1.highBet < maxRoundBet
  let g2 := { g1 with highBet := maxRoundBet }
  advanceActivePlayer (if wasARaise then raiseClear g2 actorId else g2)

inductive GameAction where
  | fold
  | check
  | bet (amount : Int)
  | nextRound
deriving DecidableEq, Repr

/-- Result of one `action` message: the updated game, the error reply sent
back to the originating socket (if any), and whether the new state was
broadcast to the table. -/
structure ActionResult where
  game : Game
  reply : Option String
  broadcast : Bool
deriving DecidableEq, Repr

/-- The `action` message handler of server.ts (game already looked up).
`nextRound` is handled before the player lookup and the turn check; the
turn check applies only in `betting*` phases; an invalid bet amount is
dropped with neither a reply nor a broadcast. -/
def handleAction (g : Game) (playerId : String) (act : GameAction) : ActionResult :=
  match act with
  | .nextRound => ⟨nextRoundReset g, none, true⟩
  | _ =>
    match g.players.findIdx? fun p => p.id = playerId with
    | none => ⟨g, none, false⟩
    | some playerIndex =>
      if isBettingPhase g.phase ∧ playerIndex ≠ g.activePlayerIndex then
        ⟨g, some "Not your turn", false⟩
      else
        let player := g.players.getD playerIndex defaultPlayer
        match act with
        | .fold => ⟨applyFold g playerIndex, none, true⟩
        | .check =>
          let canCheck := g.highBet = 0 ∨ g.highBet ≤ player.roundBet
          if ¬canCheck then
            ⟨g, some ("Must match bet of " ++ toString g.highBet), false⟩
          else
            let g1 := applyCheckCore g playerIndex
            ⟨if allBetsMatched g1 then advancePhase g1 else g1, none, true⟩
        | .bet amount =>
          if amount ≤ 0 ∨ player.chips < amount then ⟨g, none, false⟩
          else
            let g1 := applyBetCore g playerIndex amount
            ⟨if allBetsMatched g1 then advancePhase g1 else g1, none, true⟩
        | .nextRound => ⟨g, none, false⟩

-- ====== GAME CREATION / JOINING (server.ts createGame / joinGame) ======

/-- The player literal of the `createGame` handler.  Its TS literal has no
`actedThisRound` field; the absent optional reads as `false`. -/
def mkHostPlayer (playerId playerName : String) (walletAddress : Option String) : Player :=
  { id := playerId, name := playerName, walletAddress := walletAddress, chips := 1000,
    bet := 0, roundBet := 0, hand := [], folded := false, isActive := true,
    hasDealerChip := true, actedThisRound := false, handType := none }

/-- The player literal of the `joinGame` handler. -/
def mkJoinPlayer (playerId playerName : String) (walletAddress : Option String) : Player :=
  { id := playerId, name := playerName, walletAddress := walletAddress, chips := 1000,
    bet := 0, roundBet := 0, hand := [], folded := false, isActive := true,
    hasDealerChip := false, actedThisRound := false, handType := none }

/-- `createGame` handler: a fresh game with the host as only player. -/
def createGame (gameId gameType playerId playerName : String)
    (walletAddress : Option String) : Game :=
  { gameId := gameId, gameType := gameType, yellowSessionId := none,
    players := [mkHostPlayer playerId playerName walletAddress],
    community := [], pot := 0, highBet := 0, phase := .idle, activePlayerIndex := 0,
    minBet := 20, deck := [], winner := none, foldWinner := none }

/-- `joinGame` handler (game already looked up): reject with "Game is full"
when two players are already seated, otherwise push the joiner. -/
def joinGame (g : Game) (playerId playerName : String) (walletAddress : Option String) :
    Game × Option String :=
  if 2 ≤ g.players.length then (g, some "Game is full")
  else ({ g with players := g.players ++ [mkJoinPlayer playerId playerName walletAddress] },
        none)

/-- The games reachable from a `createGame` request by any sequence of
`joinGame` requests. -/
inductive ReachableGame : Game → Prop where
  | create (gameId gameType playerId playerName : String) (w : Option String) :
      ReachableGame (createGame gameId gameType playerId playerName w)
  | join (g : Game) (playerId playerName : String) (w : Option String) :
      ReachableGame g → ReachableGame (joinGame g playerId playerName w).1

/-- `startGame` handler: only the host (players[0]) may start; on success
the hand state is reset, a fresh deck is installed and hole cards are
dealt.  The freshly created shuffled deck (`createDeck()`) is passed in
explicitly as `newDeck`. -/
def startGame (g : Game) (playerId : String) (newDeck : List Card) : Game × Option String :=
  let isHost : Bool := match g.players.head? with
    | some p0 => p0.id = playerId
    | none => false
  if isHost then
    let g1 := { g with
      phase := Phase.betting1, activePlayerIndex := 0, pot := 0, highBet := 0,
      players := g.players.map fun p =>
        { p with
          bet := (0 : Int), roundBet := (0 : Int), folded := false,
          hand := ([] : List Card), actedThisRound := false },
      community := [], deck := newDeck }
    (dealCards g1, none)
  else (g, some "Only host can start the game")

-- ====== STATE BROADCAST (server.ts broadcastGameState) ======

/-- The `gameState` payload built by `broadcastGameState`: the raw game
fields, including every player's full record (hole cards included). -/
structure StatePayload where
  gameId : String
  yellowSessionId : Option String
  players : List Player
  community : List Card
  pot : Int
  highBet : Int
  phase : Phase
  activePlayerIndex : Nat
  minBet : Int
  winner : Option WinnerInfo
  foldWinner : Option FoldWinnerInfo
deriving DecidableEq, Repr

def snapshotPayload (g : Game) : StatePayload :=
  { gameId := g.gameId, yellowSessionId := g.yellowSessionId, players := g.players,
    community := g.community, pot := g.pot, highBet := g.highBet, phase := g.phase,
    activePlayerIndex := g.activePlayerIndex, minBet := g.minBet,
    winner := g.winner, foldWinner := g.foldWinner }

/-- `broadcastGameState`: the one serialized message is sent to every
player's connection — the list pairs each recipient id with the payload
delivered to that recipient's socket. -/
def broadcastGameState (g : Game) : List (String × StatePayload) :=
  g.players.map fun p => (p.id, snapshotPayload g)

-- ====== CLIENT LOCAL ENGINE DECK (useGame hook: DECK / shuffleDeck) ======

/-- Client card shape `{ cardFace, suit }`. -/
structure CCard where
  cardFace : String
  suit : String
deriving DecidableEq, Repr

/-- The client `DECK` constant: faces A..2, each with the four suits. -/
def clientDECK : List CCard :=
  (["A", "K", "Q", "J", "10", "9", "8", "7", "6", "5", "4", "3", "2"] : List String).flatMap
    fun face => (["Spade", "Heart", "Diamond", "Club"] : List String).map
      fun s => { cardFace := face, suit := s }

/-- `[deck[i], deck[j]] = [deck[j], deck[i]]`: read both positions, then
write both (identity when an index is out of range, which the loop below
never produces). -/
def listSwap {α : Type} (l : List α) (i j : Nat) : List α :=
  match l.get? i, l.get? j with
  | some a, some b => (l.set i b).set j a
  | _, _ => l

/-- The Fisher–Yates loop of `shuffleDeck`:
`for (i = len-1; i > 0; i--) swap(i, floor(random()*(i+1)))`; the random
draw at index `i` is `rand i`, reduced into range by `% (i+1)`. -/
def fyGo {α : Type} (rand : Nat → Nat) : Nat → List α → List α
  | 0, l => l
  | i + 1, l => fyGo rand i (listSwap l (i + 1) (rand (i + 1) % (i + 2)))

/-- `shuffleDeck()` of the client engine, over an arbitrary stream of
`Math.random()` draws. -/
def shuffleDeck (rand : Nat → Nat) : List CCard :=
  fyGo rand 51 clientDECK

-- ====== CONCRETE TEST STATES ======

/-- A live two-player mid-hand test player. -/
def mkTestPlayer (pid nm : String) (chips roundBet : Int) (acted folded : Bool) : Player :=
  { id := pid, name := nm, walletAddress := none, chips := chips, bet := 0,
    roundBet := roundBet, hand := [], folded := folded, isActive := true,
    hasDealerChip := pid = "pA", actedThisRound := acted, handType := none }

/-- A two-player game mid-hand, in `betting1`, with 30 chips already in the
pot (15 committed by each player this round). -/
def gMidHand : Game :=
  { gameId := "g1", gameType := "standard", yellowSessionId := none,
    players := [mkTestPlayer "pA" "Alice" 985 15 true false,
                mkTestPlayer "pB" "Bob" 985 15 true false],
    community := [], pot := 30, highBet := 15, phase := .betting1,
    activePlayerIndex := 0, minBet := 20,
    deck := [⟨.hearts, .r7⟩, ⟨.clubs, .r8⟩], winner := none, foldWinner := none }

/-- Variant of `gMidHand` whose players still hold their hole cards. -/
def gMidHandCards : Game :=
  { gMidHand with players :=
      [{ mkTestPlayer "pA" "Alice" 985 15 true false with
          hand := [⟨.spades, .A⟩, ⟨.hearts, .K⟩] },
       { mkTestPlayer "pB" "Bob" 985 15 true false with
          hand := [⟨.diamonds, .Q⟩, ⟨.clubs, .J⟩] }] }

/-- A state in which player 0 has folded while player 1 — live, with chips
and `actedThisRound = false` — has not yet responded. -/
def gOneFolded : Game :=
  { gMidHand with players :=
      [mkTestPlayer "pA" "Alice" 985 15 true true,
       mkTestPlayer "pB" "Bob" 985 0 false false] }

/-- A state where Bob has raised to 15 and Alice (yet to act, roundBet 0)
is next: used to exercise check/bet validation. -/
def gFacingBet : Game :=
  { gMidHand with
    players := [mkTestPlayer "pA" "Alice" 985 0 false false,
                mkTestPlayer "pB" "Bob" 985 15 true false],
    pot := 15 }

/-- The game state at the start of a hand, built by the actual handler
chain: create, join, start (with an explicitly supplied 52-card deck). -/
def gHandStart : Game :=
  (startGame (joinGame (createGame "g1" "standard" "p1" "Alice" none) "p2" "Bob" none).1
    "p1" baseDeck).1


/-- The royal-flush spade cards named by the spec's evaluator test vector. -/
def royalSpades : List Card :=
  [⟨.spades, .A⟩, ⟨.spades, .K⟩, ⟨.spades, .Q⟩, ⟨.spades, .J⟩, ⟨.spades, .r10⟩]

-- ====== THEOREMS ======

/-- C1 (code_bug evidence): from the start of a hand built by the actual
handler chain, a single accepted bet of 10 yields `pot = 10` while the
per-player `bet` (currentBet) fields — which the bet handler never
increments — still sum to 0, violating `pot == sum(players[i].bet)`. -/
theorem c1_pot_vs_bet_fields :
    (handleAction gHandStart "p1" (GameAction.bet 10)).broadcast = true ∧
    (handleAction gHandStart "p1" (GameAction.bet 10)).game.pot = 10 ∧
    ((handleAction gHandStart "p1" (GameAction.bet 10)).game.players.map (·.bet)).sum = 0 := by
  decide

/-- C2 (code_bug evidence): a fold that leaves one non-folded player
transfers the whole pot (30) to the winner and zeroes the pot, but the
recorded `foldWinner.potWon` is 0, because the handler zeroes `game.pot`
before building the summary record. -/
theorem c2_fold_records_zero_potWon :
    gMidHand.pot = 30 ∧
    ((handleAction gMidHand "pA" GameAction.fold).game.players.getD 1 defaultPlayer).chips
      = (gMidHand.players.getD 1 defaultPlayer).chips + 30 ∧
    (handleAction gMidHand "pA" GameAction.fold).game.pot = 0 ∧
    ((handleAction gMidHand "pA" GameAction.fold).game.foldWinner.map (·.potWon)) = some 0 := by
  decide

/-- C4 counterexample: `nextRound` on a game in `betting1` (not showdown)
is not a no-op — the state changes. -/
theorem c4_nextRound_midhand_changes_state :
    gMidHand.phase ≠ Phase.showdown ∧
    (handleAction gMidHand "pA" GameAction.nextRound).game ≠ gMidHand := by
  decide

/-- C4 amended: the server's `nextRound` command carries no phase guard; in
every phase it resets the hand — phase `idle`, pot and highBet 0, per-player
bet/roundBet/folded/hand/actedThisRound cleared, busted players rebought
(so no player is left at 0 chips), community and winner cleared. -/
theorem c4_nextRound_always_resets (g : Game) (playerId : String) :
    (handleAction g playerId GameAction.nextRound).game.phase = Phase.idle ∧
    (handleAction g playerId GameAction.nextRound).game.pot = 0 ∧
    (handleAction g playerId GameAction.nextRound).game.highBet = 0 ∧
    (handleAction g playerId GameAction.nextRound).game.community = [] ∧
    (handleAction g playerId GameAction.nextRound).game.winner = none ∧
    ∀ p ∈ (handleAction g playerId GameAction.nextRound).game.players,
      p.bet = 0 ∧ p.roundBet = 0 ∧ p.folded = false ∧ p.hand = [] ∧
      p.actedThisRound = false ∧ p.chips ≠ 0 := by
  refine ⟨rfl, rfl, rfl, rfl, rfl, ?_⟩
  intro p hp
  simp only [handleAction, nextRoundReset, List.mem_map] at hp
  obtain ⟨q, _, rfl⟩ := hp
  constructor
  · split <;> rfl
  constructor
  · split <;> rfl
  constructor
  · split <;> rfl
  constructor
  · split <;> rfl
  constructor
  · split <;> rfl
  · split
    · simp
    · next h => simpa using h

/-- C4 witness: the amended reset behaviour at a concrete mid-hand state. -/
theorem c4_nextRound_always_resets_witness :
    (handleAction gMidHand "pA" GameAction.nextRound).game.phase = Phase.idle ∧
    (handleAction gMidHand "pA" GameAction.nextRound).game.pot = 0 := by
  exact ⟨(c4_nextRound_always_resets gMidHand "pA").1,
         (c4_nextRound_always_resets gMidHand "pA").2.1⟩

/-- C5 counterexample: with player 0 folded, player 1 — non-folded, active,
with chips and `actedThisRound = false` — has not responded, yet
`allBetsMatched` returns true (the `activePlayers.length <= 1` early exit
fires before the acted check). -/
theorem c5_allBetsMatched_with_unacted_player :
    allBetsMatched gOneFolded = true ∧
    (gOneFolded.players.getD 1 defaultPlayer).folded = false ∧
    (gOneFolded.players.getD 1 defaultPlayer).isActive = true ∧
    0 < (gOneFolded.players.getD 1 defaultPlayer).chips ∧
    (gOneFolded.players.getD 1 defaultPlayer).actedThisRound = false := by
  decide

/-- C5 amended: `allBetsMatched` is false whenever at least two non-folded
active players remain and some non-folded active player with chips > 0 has
`actedThisRound = false` (with only one live player left, the early exit
returns true regardless). -/
theorem c5_amended (g : Game)
    (h2 : 2 ≤ (g.players.filter fun p => !p.folded && p.isActive).length)
    (p : Player)
    (hmem : p ∈ g.players.filter fun q => !q.folded && q.isActive)
    (hchips : 0 < p.chips) (hacted : p.actedThisRound = false) :
    allBetsMatched g = false := by
  unfold allBetsMatched
  have hpw : p ∈ (g.players.filter fun q => !q.folded && q.isActive).filter
      fun q => decide (q.chips > 0) := by
    rw [List.mem_filter]
    exact ⟨hmem, by simpa using hchips⟩
  rw [if_neg (by omega)]
  rw [if_neg ?hlen]
  case hlen =>
    intro hlen
    rw [List.length_eq_zero] at hlen
    rw [hlen] at hpw
    exact absurd hpw (List.not_mem_nil p)
  have hall : ((g.players.filter fun q => !q.folded && q.isActive).filter
      fun q => decide (q.chips > 0)).all (·.actedThisRound) = false := by
    rw [Bool.eq_false_iff]
    intro hall
    rw [List.all_eq_true] at hall
    have := hall p hpw
    rw [hacted] at this
    exact Bool.false_ne_true this
  rw [hall]
  rfl

/-- C5 witness: the amended statement applied at a concrete state where
Alice has not yet responded to Bob's bet. -/
theorem c5_amended_witness : allBetsMatched gFacingBet = false :=
  c5_amended gFacingBet (by decide) (mkTestPlayer "pA" "Alice" 985 0 false false)
    (by decide) (by decide) (by decide)

/-- C7 counterexample: a bet with amount 0 from the player whose turn it is,
in a betting phase, leaves the state unchanged but is NOT reported to the
sender — the handler drops it with no reply (and no broadcast). -/
theorem c7_invalid_bet_dropped_silently :
    gFacingBet.phase = Phase.betting1 ∧
    gFacingBet.activePlayerIndex = 0 ∧
    (gFacingBet.players.getD 0 defaultPlayer).id = "pA" ∧
    handleAction gFacingBet "pA" (GameAction.bet 0) =
      ⟨gFacingBet, none, false⟩ := by
  decide

/-- C7 amended: a wrong-turn action during a betting phase and an illegal
check are rejected with an error reply to the sender only and no state
change or broadcast; a bet whose amount is ≤ 0 or exceeds the actor's chips
also leaves the state unchanged but produces no reply at all. -/
theorem c7_amended (g : Game) (playerId : String) (act : GameAction) (a : Int) (i : Nat)
    (hfind : g.players.findIdx? (fun p => p.id = playerId) = some i) :
    (isBettingPhase g.phase = true → i ≠ g.activePlayerIndex → act ≠ GameAction.nextRound →
      handleAction g playerId act = ⟨g, some "Not your turn", false⟩) ∧
    (¬(isBettingPhase g.phase = true ∧ i ≠ g.activePlayerIndex) →
      ¬(g.highBet = 0 ∨ g.highBet ≤ (g.players.getD i defaultPlayer).roundBet) →
      handleAction g playerId GameAction.check =
        ⟨g, some ("Must match bet of " ++ toString g.highBet), false⟩) ∧
    (¬(isBettingPhase g.phase = true ∧ i ≠ g.activePlayerIndex) →
      (a ≤ 0 ∨ (g.players.getD i defaultPlayer).chips < a) →
      handleAction g playerId (GameAction.bet a) = ⟨g, none, false⟩) := by
  refine ⟨?_, ?_, ?_⟩
  · intro hb hi hact
    cases act with
    | nextRound => exact absurd rfl hact
    | fold => simp [handleAction, hfind, hb, hi]
    | check => simp [handleAction, hfind, hb, hi]
    | bet a => simp [handleAction, hfind, hb, hi]
  · intro hturn hcheck
    push_neg at hcheck
    simp [handleAction, hfind, hturn, List.getD] at hcheck ⊢
    exact hcheck
  · intro hturn hbet
    simp [handleAction, hfind, hturn, List.getD] at hbet ⊢
    intro h0
    rcases hbet with h | h
    · omega
    · exact h

/-- C7 witness: the three rejection paths at concrete states — Bob acting
out of turn, Alice checking while facing a bet of 15, and Alice betting 0. -/
theorem c7_amended_witness :
    handleAction gFacingBet "pB" GameAction.check = ⟨gFacingBet, some "Not your turn", false⟩ ∧
    handleAction gFacingBet "pA" GameAction.check =
      ⟨gFacingBet, some ("Must match bet of " ++ toString gFacingBet.highBet), false⟩ ∧
    handleAction gFacingBet "pA" (GameAction.bet 0) = ⟨gFacingBet, none, false⟩ := by
  refine ⟨?_, ?_, ?_⟩
  · exact (c7_amended gFacingBet "pB" GameAction.check 0 1 (by decide)).1
      (by decide) (by decide) (by decide)
  · exact (c7_amended gFacingBet "pA" GameAction.check 0 0 (by decide)).2.1
      (by decide) (by decide)
  · exact (c7_amended gFacingBet "pA" GameAction.check 0 0 (by decide)).2.2
      (by decide) (by decide)

/-- C8 counterexample: in `betting1` (before showdown) the payload delivered
to Alice's connection is the full unredacted state — it contains Bob's two
hole cards. -/
theorem c8_snapshot_contains_opponent_cards :
    gMidHandCards.phase ≠ Phase.showdown ∧
    (broadcastGameState gMidHandCards).getD 0 ("", snapshotPayload gMidHandCards)
      = ("pA", snapshotPayload gMidHandCards) ∧
    ((snapshotPayload gMidHandCards).players.getD 1 defaultPlayer).hand
      = [⟨Suit.diamonds, Rank.Q⟩, ⟨Suit.clubs, Rank.J⟩] := by
  decide

/-- C8 amended: `broadcastGameState` sends the identical payload to every
player's connection, and that payload embeds the raw `players` array —
every player's hole cards included — in every phase. -/
theorem c8_amended (g : Game) (entry : String × StatePayload)
    (hmem : entry ∈ broadcastGameState g) :
    entry.2 = snapshotPayload g ∧ entry.2.players = g.players := by
  simp only [broadcastGameState, List.mem_map] at hmem
  obtain ⟨p, _, rfl⟩ := hmem
  exact ⟨rfl, rfl⟩

/-- C8 witness: the amended statement at a concrete mid-hand state, for the
message delivered to Alice. -/
theorem c8_amended_witness :
    ("pA", snapshotPayload gMidHandCards).2.players = gMidHandCards.players :=
  (c8_amended gMidHandCards ("pA", snapshotPayload gMidHandCards) (by decide)).2

/-- C10: the players list of any game reachable by createGame/joinGame
requests never exceeds 2, and a join against a game that already has 2
players is rejected with "Game is full" leaving the game unchanged. -/
theorem c10_join_capped_at_two :
    (∀ g : Game, ReachableGame g → g.players.length ≤ 2) ∧
    (∀ (g : Game) (pid nm : String) (w : Option String), 2 ≤ g.players.length →
      joinGame g pid nm w = (g, some "Game is full")) := by
  constructor
  · intro g h
    induction h with
    | create gameId gameType playerId playerName w => simp [createGame]
    | join g pid nm w _ ih =>
      by_cases h2 : 2 ≤ g.players.length
      · simpa [joinGame, h2] using ih
      · simp [joinGame, h2]
        omega
  · intro g pid nm w h2
    simp [joinGame, h2]

/-- C10 witness: a two-player game built by the handlers cannot be joined. -/
theorem c10_join_capped_at_two_witness :
    (joinGame (createGame "g1" "standard" "p1" "Alice" none) "p2" "Bob" none).1.players.length
      ≤ 2 ∧
    joinGame gMidHand "p3" "Carol" none = (gMidHand, some "Game is full") := by
  constructor
  · exact c10_join_capped_at_two.1 _
      (ReachableGame.join _ "p2" "Bob" none
        (ReachableGame.create "g1" "standard" "p1" "Alice" none))
  · exact c10_join_capped_at_two.2 gMidHand "p3" "Carol" none (by decide)

/-- `advanceActivePlayer` only moves the turn pointer: the players array is
untouched. -/
theorem advanceActivePlayer_players (g : Game) :
    (advanceActivePlayer g).players = g.players := by
  simp only [advanceActivePlayer]
  split
  · rfl
  · split <;> rfl

theorem getD_set_ne {α : Type} (l : List α) (i j : Nat) (p d : α) (h : i ≠ j) :
    (l.set i p).getD j d = l.getD j d := by
  simp [List.getD, List.getElem?_set_ne h]

theorem getD_map_lt {α β : Type} (l : List α) (f : α → β) (j : Nat) (d : β) (e : α)
    (h : j < l.length) : (l.map f).getD j d = f (l.getD j e) := by
  simp [List.getD, List.getElem?_map, List.getElem?_eq_getElem h]

theorem betApply_players_other (g : Game) (i j : Nat) (a : Int) (h : i ≠ j) :
    (betApply g i a).players.getD j defaultPlayer = g.players.getD j defaultPlayer := by
  simp only [betApply]
  exact getD_set_ne _ _ _ _ _ h

/-- C3: in the betting controller step of the `bet` handler (bet applied,
`highBet` recomputed, raise detection, turn advanced — before the
round-completion check hands off to the phase machine), a raise — the new
maximum `roundBet` among live players strictly exceeding the previous
`highBet` — leaves every other non-folded player with
`actedThisRound = false`; a bet that is not a raise, and an accepted check,
leave every other player's `actedThisRound` exactly as it was. -/
theorem c3_raise_reopens_round (g : Game) (i j : Nat) (a : Int)
    (hj : j < g.players.length)
    (hid : (g.players.getD j defaultPlayer).id ≠ (g.players.getD i defaultPlayer).id)
    (hfold : (g.players.getD j defaultPlayer).folded = false) :
    (g.highBet < maxRoundBetOf (betApply g i a) →
      ((applyBetCore g i a).players.getD j defaultPlayer).actedThisRound = false) ∧
    (¬g.highBet < maxRoundBetOf (betApply g i a) →
      ((applyBetCore g i a).players.getD j defaultPlayer).actedThisRound
        = (g.players.getD j defaultPlayer).actedThisRound) ∧
    ((applyCheckCore g i).players.getD j defaultPlayer).actedThisRound
        = (g.players.getD j defaultPlayer).actedThisRound := by
  have hij : i ≠ j := by
    intro h
    rw [h] at hid
    exact hid rfl
  have hhb : (betApply g i a).highBet = g.highBet := rfl
  have hlen : (betApply g i a).players.length = g.players.length := by
    simp [betApply]
  refine ⟨?_, ?_, ?_⟩
  · intro hraise
    simp only [applyBetCore, advanceActivePlayer_players, hhb, if_pos hraise]
    simp only [raiseClear]
    rw [getD_map_lt _ _ _ _ defaultPlayer (by simpa [hlen] using hj)]
    rw [betApply_players_other g i j a hij]
    rw [if_pos ⟨hid, hfold⟩]
  · intro hraise
    simp only [applyBetCore, advanceActivePlayer_players, hhb, if_neg hraise]
    rw [show ({ betApply g i a with highBet := maxRoundBetOf (betApply g i a) } : Game).players
        = (betApply g i a).players from rfl]
    rw [betApply_players_other g i j a hij]
  · simp only [applyCheckCore, advanceActivePlayer_players]
    exact congrArg Player.actedThisRound (getD_set_ne _ _ _ _ _ hij)

/-- C3 witness: Alice's bet of 30 over a highBet of 15 is a raise and
clears Bob's `actedThisRound`; Alice's check leaves Bob's flag as it was. -/
theorem c3_raise_reopens_round_witness :
    ((applyBetCore gFacingBet 0 30).players.getD 1 defaultPlayer).actedThisRound = false ∧
    ((applyCheckCore gMidHand 0).players.getD 1 defaultPlayer).actedThisRound
      = (gMidHand.players.getD 1 defaultPlayer).actedThisRound :=
  ⟨(c3_raise_reopens_round gFacingBet 0 1 30 (by decide) (by decide) (by decide)).1 (by decide),
   (c3_raise_reopens_round gMidHand 0 1 5 (by decide) (by decide) (by decide)).2.2⟩

/-- Moving `b` out of position `m` (overwritten by `x`) is a permutation:
`b :: t.set m x` rearranges `x :: t` when `t[m] = b`. -/
theorem cons_set_perm {α : Type} (t : List α) :
    ∀ (m : Nat) (b x : α), t.get? m = some b → List.Perm (b :: t.set m x) (x :: t) := by
  induction t with
  | nil => intro m b x h; simp at h
  | cons y t' ih =>
    intro m b x h
    cases m with
    | zero =>
      simp only [List.get?_cons_zero, Option.some.injEq] at h
      rw [← h]
      simp only [List.set_cons_zero]
      exact List.Perm.swap x y t'
    | succ m =>
      simp only [List.get?_cons_succ] at h
      have p := ih m b x h
      simp only [List.set_cons_succ]
      exact (List.Perm.swap y b _).trans ((p.cons y).trans (List.Perm.swap x y t'))

/-- A two-index swap is a permutation. -/
theorem listSwap_perm {α : Type} [DecidableEq (List α)] (l : List α) (i j : Nat) :
    List.Perm (listSwap l i j) l := by
  unfold listSwap
  cases hi : l.get? i with
  | none => exact List.Perm.refl l
  | some a =>
    cases hj : l.get? j with
    | none => exact List.Perm.refl l
    | some b =>
      by_cases hij : i = j
      · subst hij
        rw [hi] at hj
        injection hj with hab
        subst hab
        show List.Perm ((l.set i a).set i a) l
        rw [List.set_set]
        exact ((cons_set_perm l i a a hi).cons_inv)
      · have hj' : (l.set i b).get? j = some b := by
          rw [List.get?_eq_getElem?, List.getElem?_set_ne hij, ← List.get?_eq_getElem?]
          exact hj
        have h1 := cons_set_perm (l.set i b) j b a hj'
        have h2 := cons_set_perm l i a b hi
        exact (h1.trans h2).cons_inv

/-- Every pass of the Fisher–Yates loop preserves the multiset of cards. -/
theorem fyGo_perm {α : Type} [DecidableEq (List α)] (rand : Nat → Nat) :
    ∀ (n : Nat) (l : List α), List.Perm (fyGo rand n l) l := by
  intro n
  induction n with
  | zero => intro l; exact List.Perm.refl l
  | succ n ih =>
    intro l
    exact (ih _).trans (listSwap_perm l (n + 1) (rand (n + 1) % (n + 2)))

/-- C9: for every outcome of the random source, both deck constructions —
the server's `createDeck` (52 cards run through `sort` with a random
comparator) and the client's `shuffleDeck` (Fisher–Yates over `DECK`) —
return a 52-card permutation of the canonical deck, with no duplicates and
none missing. -/
theorem c9_shuffle_is_permutation :
    (∀ cmp : Card → Card → Bool,
      List.Perm (createDeck cmp) baseDeck ∧ (createDeck cmp).length = 52 ∧
        (createDeck cmp).Nodup) ∧
    (∀ rand : Nat → Nat,
      List.Perm (shuffleDeck rand) clientDECK ∧ (shuffleDeck rand).length = 52 ∧
        (shuffleDeck rand).Nodup) := by
  have hbase : baseDeck.Nodup := by decide
  have hblen : baseDeck.length = 52 := by decide
  have hcbase : clientDECK.Nodup := by decide
  have hclen : clientDECK.length = 52 := by decide
  constructor
  · intro cmp
    have hp : List.Perm (createDeck cmp) baseDeck := List.perm_insertionSort _ _
    exact ⟨hp, by rw [hp.length_eq, hblen], hp.nodup_iff.mpr hbase⟩
  · intro rand
    have hp : List.Perm (shuffleDeck rand) clientDECK := fyGo_perm rand 51 clientDECK
    exact ⟨hp, by rw [hp.length_eq, hclen], hp.nodup_iff.mpr hcbase⟩

/-- `sortedCounts` depends only on the multiset of ranks. -/
theorem sortedCounts_perm {rs rs' : List Rank} (h : List.Perm rs rs') :
    sortedCounts rs = sortedCounts rs' := by
  unfold sortedCounts
  have h1 : List.Perm rs.dedup rs'.dedup := h.dedup
  have h3 : (rs'.dedup.map fun r => rs.count r) = rs'.dedup.map fun r => rs'.count r :=
    List.map_congr_left fun a _ => h.count_eq a
  have h2 : List.Perm (rs.dedup.map fun r => rs.count r) (rs'.dedup.map fun r => rs'.count r) :=
    h3 ▸ h1.map _
  exact List.eq_of_perm_of_sorted
    ((List.perm_insertionSort _ _).trans (h2.trans (List.perm_insertionSort _ _).symm))
    (List.sorted_insertionSort _ _) (List.sorted_insertionSort _ _)

/-- A 7-card list containing the five royal spades is, up to permutation,
those five cards plus two others. -/
theorem exists_two_extra {l : List Card} (hlen : l.length = 7)
    (hsub : ∀ c ∈ royalSpades, c ∈ l) :
    ∃ c1 c2, List.Perm l (royalSpades ++ [c1, c2]) := by
  have hnd : royalSpades.Nodup := by decide
  have hsp : List.Subperm royalSpades l := hnd.subperm hsub
  have hle : (royalSpades : Multiset Card) ≤ (l : Multiset Card) := Multiset.coe_le.mpr hsp
  obtain ⟨u, hu⟩ := Multiset.le_iff_exists_add.mp hle
  have hcard : Multiset.card u = 2 := by
    have hc := congrArg Multiset.card hu
    simp only [Multiset.coe_card, Multiset.card_add, hlen] at hc
    have hfive : royalSpades.length = 5 := rfl
    rw [hfive] at hc
    omega
  obtain ⟨c1, c2, rfl⟩ := Multiset.card_eq_two.mp hcard
  refine ⟨c1, c2, ?_⟩
  rw [← Multiset.coe_eq_coe, hu, ← Multiset.coe_add]
  rfl

/-- With two arbitrary extra ranks next to A,K,Q,J,10, the sorted rank
counts can never reach four of a kind nor the 3+2 full-house shape. -/
theorem royal_counts_bound :
    ∀ ra rb : Rank,
      (sortedCounts ([Rank.A, Rank.K, Rank.Q, Rank.J, Rank.r10] ++ [ra, rb])).getD 0 0 ≠ 4 ∧
      ¬((sortedCounts ([Rank.A, Rank.K, Rank.Q, Rank.J, Rank.r10] ++ [ra, rb])).getD 0 0 = 3 ∧
        (sortedCounts ([Rank.A, Rank.K, Rank.Q, Rank.J, Rank.r10] ++ [ra, rb])).getD 1 0 = 2) := by
  decide

/-- Any card list containing the five royal spades passes the evaluator's
flush test. -/
theorem isFlush_royal {l : List Card} (hsub : ∀ c ∈ royalSpades, c ∈ l) :
    (((l.map (·.suit)).dedup).any fun s => decide (5 ≤ (l.map (·.suit)).count s)) = true := by
  rw [List.any_eq_true]
  have hnd : royalSpades.Nodup := by decide
  have hcp := List.Subperm.countP_le (fun c : Card => c.suit == Suit.spades) (hnd.subperm hsub)
  refine ⟨Suit.spades, ?_, ?_⟩
  · rw [List.mem_dedup]
    exact List.mem_map.mpr ⟨⟨Suit.spades, Rank.A⟩, hsub _ (by decide), rfl⟩
  · have key : (l.map (·.suit)).count Suit.spades
        = l.countP fun c : Card => c.suit == Suit.spades := by
      simp only [List.count, List.countP_map]
      rfl
    have hfive : royalSpades.countP (fun c : Card => c.suit == Suit.spades) = 5 := by decide
    rw [key]
    rw [hfive] at hcp
    exact decide_eq_true hcp

/-- When the flush flag holds and neither the quads test nor the 3+2 test
fires, the evaluator's category chain lands on "Flush". -/
theorem handTypeOf_flush (counts : List Nat) (st : Bool)
    (h4 : counts.getD 0 0 ≠ 4) (h32 : ¬(counts.getD 0 0 = 3 ∧ counts.getD 1 0 = 2)) :
    handTypeOf counts true st = "Flush" := by
  unfold handTypeOf
  rw [if_neg h4, if_neg h32, if_pos rfl]

/-- C6 counterexample: a 7-card input containing A♠ K♠ Q♠ J♠ 10♠ is labelled
"Flush", not "Straight Flush" — the evaluator has no Straight Flush branch. -/
theorem c6_royal_labelled_flush :
    (evaluateHand [⟨.spades, .A⟩, ⟨.spades, .K⟩]
      [⟨.spades, .Q⟩, ⟨.spades, .J⟩, ⟨.spades, .r10⟩, ⟨.hearts, .r2⟩, ⟨.diamonds, .r3⟩]).2
      ≠ "Straight Flush" ∧
    (evaluateHand [⟨.spades, .A⟩, ⟨.spades, .K⟩]
      [⟨.spades, .Q⟩, ⟨.spades, .J⟩, ⟨.spades, .r10⟩, ⟨.hearts, .r2⟩, ⟨.diamonds, .r3⟩]).2
      = "Flush" := by
  decide

/-- C6 amended: every 7-card input (2 hole + 5 community) containing
A♠ K♠ Q♠ J♠ 10♠ is labelled "Flush" — the evaluator's highest category is
Four of a Kind and it has no Straight Flush label, so the best such a hand
can be classified as is its flush. -/
theorem c6_amended (hand community : List Card)
    (h2 : hand.length = 2) (h5 : community.length = 5)
    (hsub : ∀ c ∈ royalSpades, c ∈ hand ++ community) :
    (evaluateHand hand community).2 = "Flush" := by
  have hlen : (hand ++ community).length = 7 := by
    rw [List.length_append, h2, h5]
  obtain ⟨c1, c2, hperm⟩ := exists_two_extra hlen hsub
  simp only [evaluateHand]
  rw [isFlush_royal hsub]
  have hcounts : sortedCounts ((hand ++ community).map (·.rank))
      = sortedCounts ((royalSpades ++ [c1, c2]).map (·.rank)) :=
    sortedCounts_perm (hperm.map _)
  rw [hcounts]
  have hmap : (royalSpades ++ [c1, c2]).map (·.rank)
      = [Rank.A, Rank.K, Rank.Q, Rank.J, Rank.r10] ++ [c1.rank, c2.rank] := rfl
  rw [hmap]
  have hr := royal_counts_bound c1.rank c2.rank
  exact handTypeOf_flush _ _ hr.1 hr.2

/-- C6 witness: the amended statement at a concrete royal-spades input with
the five spades spread across hole and community cards. -/
theorem c6_amended_witness :
    (evaluateHand [⟨.spades, .r10⟩, ⟨.hearts, .r9⟩]
      [⟨.spades, .A⟩, ⟨.spades, .K⟩, ⟨.spades, .Q⟩, ⟨.spades, .J⟩, ⟨.clubs, .r5⟩]).2
      = "Flush" :=
  c6_amended _ _ (by decide) (by decide) (by decide)
